import Mathlib

/-!
Shallow embedding of `src/capture/main.cpp` (multi-device Azure Kinect
synchronized capture orchestrator) and verification of its specified
behavior: master election, per-device configuration derivation, start/stop
choreography, the poll-and-write capture loop, and the shutdown sequence.

Modelling conventions:
- SDK calls are modelled by their observed readings/outcomes, supplied as
  inputs (jack readings, capture wait results, write/flush outcomes).
- `die(msg)` (print + `std::exit(1)`) is modelled as an error value of type
  `Err` that aborts the remainder of the run; the trace of externally visible
  SDK actions performed up to that point is kept as a `List Event`.
- The wall-clock recording deadline is modelled by an iteration count.
-/

namespace HandoverCapture

/-- Result values of `k4a_device_get_capture` (`k4a_wait_result_t`):
the code distinguishes `K4A_WAIT_RESULT_SUCCEEDED`, `K4A_WAIT_RESULT_TIMEOUT`,
and any other value (hard failure). -/
inductive WaitResult
  | succeeded
  | timeout
  | failed
deriving DecidableEq, Repr

/-- Fatal error conditions raised through `die(...)` in `main.cpp`, named as
in the specification's error taxonomy. -/
inductive Err
  | noMasterDetected
  | ambiguousMaster
  | masterNotFound
  | invalidMasterIndex
  | captureReadFailed (i : Nat)
  | captureWriteFailed (i : Nat)
deriving DecidableEq, Repr

/-- Externally visible SDK actions performed by the program, in order. -/
inductive Event
  | startCam (i : Nat)
  | sleepMs (ms : Nat)
  | getCapture (i : Nat) (r : WaitResult)
  | writeCapture (i : Nat) (ok : Bool)
  | releaseCapture (i : Nat)
  | stopCam (i : Nat)
  | flushRec (i : Nat) (ok : Bool)
  | closeRec (i : Nat)
  | closeDev (i : Nat)
  | report (name : String)
deriving DecidableEq, Repr

/-- Result of `k4a_device_get_serialnum` on one device: `some s` when the
query succeeds with serial `s`, `none` when it fails. -/
def SerialQuery := Option String

/-- `get_serial` (main.cpp lines 33-42): returns the queried serial number,
or the literal `"unknown_serial"` when the query fails. It never aborts. -/
def get_serial (q : Option String) : String :=
  match q with
  | none => "unknown_serial"
  | some s => s

/-- `make_filename` (main.cpp lines 44-49): `"k4a_<index>_<serial>.mkv"`. -/
def make_filename (index : Nat) (serial : String) : String :=
  "k4a_" ++ toString index ++ "_" ++ serial ++ ".mkv"

/-- Sync-jack reading of one device (`k4a_device_get_sync_jack` out-params). -/
structure Jack where
  syncIn : Bool
  syncOut : Bool
deriving DecidableEq, Repr

/-- One opened device as the election code sees it: its serial string (already
substituted by `get_serial`) and its sync-jack reading. The device's index is
its position in the device list, matching `ctx.index = i` in the open loop. -/
structure Device where
  serial : String
  jack : Jack
deriving DecidableEq, Repr

/-- Master-candidate test from `find_master_by_sync_jack` (line 169):
`sync_out && !sync_in`. -/
def qualifies (d : Device) : Bool :=
  d.jack.syncOut && !d.jack.syncIn

/-- Loop body of `find_master_by_sync_jack` (lines 154-180): scan the devices
in order carrying `found_index` (`none` = `-1`); a second candidate dies with
the ambiguous-master message. Jack reads are modelled as the given readings. -/
def syncJackScan : List Device → Nat → Option Nat → Except Err (Option Nat)
  | [], _, acc => .ok acc
  | d :: rest, i, acc =>
    if qualifies d then
      match acc with
      | some _ => .error .ambiguousMaster
      | none => syncJackScan rest (i + 1) (some i)
    else
      syncJackScan rest (i + 1) acc

/-- `find_master_by_sync_jack` combined with its caller's check (lines
192-198): a scan returning `-1` (here `none`) dies with the
no-master-detected message. -/
def find_master_by_sync_jack (devices : List Device) : Except Err Nat :=
  match syncJackScan devices 0 none with
  | .error e => .error e
  | .ok none => .error .noMasterDetected
  | .ok (some i) => .ok i

/-- Loop body of `find_master_by_serial` (lines 148-152): first device whose
serial equals the argument, else `none` (`-1` in the code). -/
def serialScan : List Device → Nat → String → Option Nat
  | [], _, _ => none
  | d :: rest, i, s => if d.serial = s then some i else serialScan rest (i + 1) s

/-- `find_master_by_serial` (lines 148-152). -/
def find_master_by_serial (devices : List Device) (serial : String) : Option Nat :=
  serialScan devices 0 serial

/-- Master-election dispatch and bounds check (main.cpp lines 182-203).
`masterIndexArg` is the value of the `master_index` variable after CLI
parsing: `-1` when `--master-index` was not given, otherwise the designated
value. The serial override is consulted first; otherwise jack inspection runs
only when `masterIndexArg = -1`; finally the chosen index is bounds-checked
against the device count (`master_index < 0 || master_index >= device_count`
dies with the invalid-master-index message). -/
def elect_dispatch (devices : List Device) (masterSerialProvided : Bool)
    (masterSerialArg : String) (masterIndexArg : Int) : Except Err Int :=
  if masterSerialProvided then
    match find_master_by_serial devices masterSerialArg with
    | some i => .ok (Int.ofNat i)
    | none => .error .masterNotFound
  else if masterIndexArg = -1 then
    match find_master_by_sync_jack devices with
    | .error e => .error e
    | .ok i => .ok (Int.ofNat i)
  else
    .ok masterIndexArg

/-- The bounds check of lines 200-203 applied to the dispatch outcome. -/
def elect_master (devices : List Device) (masterSerialProvided : Bool)
    (masterSerialArg : String) (masterIndexArg : Int) : Except Err Nat :=
  match elect_dispatch devices masterSerialProvided masterSerialArg masterIndexArg with
  | .error e => .error e
  | .ok m =>
    if m < 0 ∨ (devices.length : Int) ≤ m then .error .invalidMasterIndex
    else .ok m.toNat

/-- Color image format (`k4a_image_format_t`), constructors as in the SDK
enumeration (color formats only). -/
inductive ColorFormat
  | MJPG
  | NV12
  | YUY2
  | BGRA32
deriving DecidableEq, Repr

/-- Color resolution (`k4a_color_resolution_t`). -/
inductive ColorResolution
  | off
  | r720p
  | r1080p
  | r1440p
  | r1536p
  | r2160p
  | r3072p
deriving DecidableEq, Repr

/-- Depth mode (`k4a_depth_mode_t`). -/
inductive DepthMode
  | off
  | nfov2x2binned
  | nfovUnbinned
  | wfov2x2binned
  | wfovUnbinned
  | passiveIR
deriving DecidableEq, Repr

/-- Frame rate (`k4a_fps_t`). -/
inductive Fps
  | fps5
  | fps15
  | fps30
deriving DecidableEq, Repr

/-- Wired sync mode (`k4a_wired_sync_mode_t`). -/
inductive WiredSyncMode
  | standalone
  | master
  | subordinate
deriving DecidableEq, Repr

/-- The fields of `k4a_device_configuration_t` that the program touches.
`subordinate_delay_off_master_usec` is a `uint32_t` in the SDK, modelled as
`Nat`; `depth_delay_off_color_usec` is an `int32_t`, modelled as `Int`. -/
structure DeviceConfig where
  color_format : ColorFormat
  color_resolution : ColorResolution
  depth_mode : DepthMode
  camera_fps : Fps
  synchronized_images_only : Bool
  depth_delay_off_color_usec : Int
  wired_sync_mode : WiredSyncMode
  subordinate_delay_off_master_usec : Nat
deriving DecidableEq, Repr

/-- `K4A_DEVICE_CONFIG_INIT_DISABLE_ALL` restricted to the modelled fields. -/
def K4A_DEVICE_CONFIG_INIT_DISABLE_ALL : DeviceConfig :=
  { color_format := .MJPG
    color_resolution := .off
    depth_mode := .off
    camera_fps := .fps30
    synchronized_images_only := false
    depth_delay_off_color_usec := 0
    wired_sync_mode := .standalone
    subordinate_delay_off_master_usec := 0 }

/-- Per-device configuration body (main.cpp lines 208-238), as a function of
the elected master index, the global subordinate delay (`subordinate_delay_usec`,
an `int32_t` holding the CLI value, default 160, modelled as `Nat` since it is
assigned to the `uint32_t` delay field), and the device's index. -/
def derive_config (master_index : Nat) (subordinate_delay_usec : Nat) (i : Nat) :
    DeviceConfig :=
  let base := K4A_DEVICE_CONFIG_INIT_DISABLE_ALL
  { base with
    color_format := .BGRA32
    color_resolution := .r1440p
    depth_mode := .nfovUnbinned
    camera_fps := .fps30
    synchronized_images_only := true
    wired_sync_mode := if i = master_index then .master else .subordinate
    subordinate_delay_off_master_usec :=
      if i = master_index then 0 else subordinate_delay_usec
    depth_delay_off_color_usec := 0 }

/-- Start choreography (main.cpp lines 257-279): start every non-master device
in device-list order (the loop `continue`s on the master), sleep 200 ms, then
start the master. Camera starts are assumed to succeed (a failure dies
immediately; the ordering claims are about the successful path). -/
def startEvents (master_index : Nat) (devs : List Nat) : List Event :=
  devs.flatMap (fun i => if i = master_index then [] else [Event.startCam i])
    ++ [Event.sleepMs 200, Event.startCam master_index]

/-- Shutdown sequence on the normal-completion path (main.cpp lines 317-333):
stop all cameras, then flush (result discarded by the `(void)` cast) and close
every recording, then close every device handle. `flushOk i` is the outcome of
`k4a_record_flush` on device `i`. -/
def shutdownEvents (flushOk : Nat → Bool) (devs : List Nat) : List Event :=
  devs.map Event.stopCam
    ++ devs.flatMap (fun i => [Event.flushRec i (flushOk i), Event.closeRec i])
    ++ devs.map Event.closeDev

/-- `timeout_ms` constant of the capture loop (line 284). -/
def timeout_ms : Nat := 100

/-- Outcomes the hardware presents to the capture loop: `wait it i` is the
`k4a_device_get_capture` result for device `i` in iteration `it`, and
`writeOk it i` is whether `k4a_record_write_capture` succeeds there. -/
structure LoopOracle where
  wait : Nat → Nat → WaitResult
  writeOk : Nat → Nat → Bool

/-- One poll of one device (capture-loop body, main.cpp lines 289-311):
success writes the capture then releases it (a failed write still releases,
then dies); timeout does nothing further; any other wait result dies. -/
def pollDevice (o : LoopOracle) (it i : Nat) : List Event × Option Err :=
  match o.wait it i with
  | .succeeded =>
    if o.writeOk it i then
      ([Event.getCapture i .succeeded, Event.writeCapture i true,
        Event.releaseCapture i], none)
    else
      ([Event.getCapture i .succeeded, Event.writeCapture i false,
        Event.releaseCapture i], some (.captureWriteFailed i))
  | .timeout => ([Event.getCapture i .timeout], none)
  | .failed => ([Event.getCapture i .failed], some (.captureReadFailed i))

/-- One capture-loop iteration: poll every device in device-list order,
stopping at the first fatal outcome. -/
def pollDevices (o : LoopOracle) (it : Nat) : List Nat → List Event × Option Err
  | [] => ([], none)
  | i :: rest =>
    let p := pollDevice o it i
    match p.2 with
    | some err => (p.1, some err)
    | none =>
      let q := pollDevices o it rest
      (p.1 ++ q.1, q.2)

/-- The capture loop (main.cpp lines 287-312), with the wall-clock deadline
modelled as a remaining-iteration count: run iterations `it, it+1, ...` until
the count is exhausted or a fatal outcome occurs. -/
def captureLoopAux (o : LoopOracle) (devs : List Nat) : Nat → Nat → List Event × Option Err
  | _, 0 => ([], none)
  | it, fuel + 1 =>
    let p := pollDevices o it devs
    match p.2 with
    | some err => (p.1, some err)
    | none =>
      let q := captureLoopAux o devs (it + 1) fuel
      (p.1 ++ q.1, q.2)

/-- The capture loop starting at iteration 0. -/
def captureLoop (o : LoopOracle) (devs : List Nat) (iters : Nat) : List Event × Option Err :=
  captureLoopAux o devs 0 iters

/-- Process exit status: `normal` is `return 0` from `main`; `fatal e` is
`die(msg)`, which prints and calls `std::exit(1)` immediately. -/
inductive ExitStatus
  | normal
  | fatal (e : Err)
deriving DecidableEq, Repr

/-- Process exit code: 0 on the normal path, 1 from `die` (its default). -/
def exitCode : ExitStatus → Nat
  | .normal => 0
  | .fatal _ => 1

/-- The program from entry into `Streaming` to process exit (main.cpp lines
287-341): run the capture loop over devices `0..n-1`; on a fatal outcome
`die` exits immediately (no further events); otherwise stop/flush/close all
devices and print the success report listing every filename. -/
def runStreaming (o : LoopOracle) (flushOk : Nat → Bool) (iters n : Nat)
    (files : List String) : List Event × ExitStatus :=
  let p := captureLoop o (List.range n) iters
  match p.2 with
  | some err => (p.1, .fatal err)
  | none =>
    (p.1 ++ shutdownEvents flushOk (List.range n) ++ files.map Event.report,
     .normal)

/-- Observation: the device indices polled in a trace, in order. -/
def polledDevices (evs : List Event) : List Nat :=
  evs.filterMap (fun e =>
    match e with
    | .getCapture i _ => some i
    | _ => none)

/-- Observation: is this event part of teardown (stop/flush/close)? -/
def isTeardown : Event → Bool
  | .stopCam _ => true
  | .flushRec _ _ => true
  | .closeRec _ => true
  | .closeDev _ => true
  | _ => false

/-- Observation: is this event one the capture-loop body can emit? -/
def isPollEvent : Event → Bool
  | .getCapture _ _ => true
  | .writeCapture _ _ => true
  | .releaseCapture _ => true
  | _ => false

/-- Observation: is this event a success-report line? -/
def isReport : Event → Bool
  | .report _ => true
  | _ => false

/-! ### Lemmas about the sync-jack scan -/

theorem syncJackScan_clean (l : List Device) (i : Nat) (acc : Option Nat)
    (h : ∀ d ∈ l, qualifies d = false) : syncJackScan l i acc = .ok acc := by
  induction l generalizing i with
  | nil => rfl
  | cons d rest ih =>
    have hd : qualifies d = false := h d (List.mem_cons_self d rest)
    simp only [syncJackScan, hd, Bool.false_eq_true, if_false]
    exact ih (i + 1) fun x hx => h x (List.mem_cons_of_mem d hx)

theorem syncJackScan_found (l : List Device) (i x : Nat)
    (h : ∃ d ∈ l, qualifies d = true) :
    syncJackScan l i (some x) = .error .ambiguousMaster := by
  induction l generalizing i with
  | nil => simp at h
  | cons d rest ih =>
    by_cases hd : qualifies d
    · simp [syncJackScan, hd]
    · have hrest : ∃ e ∈ rest, qualifies e = true := by
        rcases h with ⟨e, he, hq⟩
        rcases List.mem_cons.mp he with rfl | hmem
        · exact absurd hq hd
        · exact ⟨e, hmem, hq⟩
      have hd' : qualifies d = false := by simpa using hd
      simp only [syncJackScan, hd', Bool.false_eq_true, if_false]
      exact ih (i + 1) hrest

theorem syncJackScan_append_clean (pre : List Device) (rest : List Device)
    (i : Nat) (acc : Option Nat) (h : ∀ d ∈ pre, qualifies d = false) :
    syncJackScan (pre ++ rest) i acc = syncJackScan rest (i + pre.length) acc := by
  induction pre generalizing i with
  | nil => simp
  | cons d pre ih =>
    have hd : qualifies d = false := h d (List.mem_cons_self d pre)
    rw [List.cons_append]
    simp only [syncJackScan, hd, Bool.false_eq_true, if_false]
    rw [ih (i + 1) fun x hx => h x (List.mem_cons_of_mem d hx)]
    congr 1
    simp
    omega

theorem syncJackScan_two (l : List Device) (i : Nat)
    (h : 2 ≤ (l.filter qualifies).length) :
    syncJackScan l i none = .error .ambiguousMaster := by
  induction l generalizing i with
  | nil => simp at h
  | cons d rest ih =>
    by_cases hd : qualifies d
    · have h1 : 1 ≤ (rest.filter qualifies).length := by
        rw [List.filter_cons, if_pos (by simpa using hd)] at h
        simpa using Nat.le_of_succ_le_succ h
      have hne : rest.filter qualifies ≠ [] := by
        intro hnil
        rw [hnil] at h1
        simp at h1
      rcases List.exists_mem_of_ne_nil _ hne with ⟨x, hx⟩
      have hmem := List.mem_filter.mp hx
      simp only [syncJackScan, hd, if_true]
      exact syncJackScan_found rest (i + 1) i ⟨x, hmem.1, hmem.2⟩
    · have hd' : qualifies d = false := by simpa using hd
      rw [List.filter_cons, if_neg (by simp [hd'])] at h
      simp only [syncJackScan, hd', Bool.false_eq_true, if_false]
      exact ih (i + 1) h

theorem find_master_by_sync_jack_unique (pre post : List Device) (d : Device)
    (hq : qualifies d = true)
    (hpre : ∀ x ∈ pre, qualifies x = false)
    (hpost : ∀ x ∈ post, qualifies x = false) :
    find_master_by_sync_jack (pre ++ d :: post) = .ok pre.length := by
  unfold find_master_by_sync_jack
  rw [syncJackScan_append_clean pre (d :: post) 0 none hpre]
  simp only [syncJackScan, hq, if_true, Nat.zero_add]
  rw [syncJackScan_clean post (pre.length + 1) (some pre.length) hpost]

theorem find_master_by_sync_jack_none (devices : List Device)
    (h : ∀ x ∈ devices, qualifies x = false) :
    find_master_by_sync_jack devices = .error .noMasterDetected := by
  unfold find_master_by_sync_jack
  rw [syncJackScan_clean devices 0 none h]

theorem find_master_by_sync_jack_two (devices : List Device)
    (h : 2 ≤ (devices.filter qualifies).length) :
    find_master_by_sync_jack devices = .error .ambiguousMaster := by
  unfold find_master_by_sync_jack
  rw [syncJackScan_two devices 0 h]

/-! ### Lemmas about `elect_master` dispatch -/

theorem elect_master_auto_ok (devices : List Device) (i : Nat)
    (h : find_master_by_sync_jack devices = .ok i) (hlt : i < devices.length) :
    elect_master devices false "" (-1) = .ok i := by
  simp [elect_master, elect_dispatch, h, hlt]

theorem elect_master_auto_err (devices : List Device) (e : Err)
    (h : find_master_by_sync_jack devices = .error e) :
    elect_master devices false "" (-1) = .error e := by
  simp [elect_master, elect_dispatch, h]

/-! ### Lemmas about the serial scan -/

theorem serialScan_none (l : List Device) (k : Nat) (s : String)
    (h : ∀ d ∈ l, d.serial ≠ s) : serialScan l k s = none := by
  induction l generalizing k with
  | nil => rfl
  | cons d rest ih =>
    have hd : d.serial ≠ s := h d (List.mem_cons_self d rest)
    simp only [serialScan, if_neg hd]
    exact ih (k + 1) fun x hx => h x (List.mem_cons_of_mem d hx)

theorem serialScan_first (l : List Device) (k : Nat) (s : String) (i : Nat)
    (d : Device) (hget : l.get? i = some d) (hser : d.serial = s)
    (hfirst : ∀ j, j < i → ∀ dj, l.get? j = some dj → dj.serial ≠ s) :
    serialScan l k s = some (k + i) := by
  induction l generalizing k i with
  | nil => simp at hget
  | cons a rest ih =>
    cases i with
    | zero =>
      have : a = d := by simpa using hget
      subst this
      simp [serialScan, hser]
    | succ i =>
      have ha : a.serial ≠ s := hfirst 0 (Nat.succ_pos i) a rfl
      simp only [serialScan, if_neg ha]
      have hrec := ih (k + 1) i (by simpa using hget)
        (fun j hj dj hdj => hfirst (j + 1) (Nat.succ_lt_succ hj) dj (by simpa using hdj))
      rw [hrec]
      congr 1
      omega

/-! ### C1, C7, C9: master election -/

/-- C1: master election by sync-jack inspection, used only when no explicit
serial or index override is given (modelled by `masterSerialProvided = false`
and `masterIndexArg = -1`): if exactly one device qualifies (sync-out
connected, sync-in not), election returns that device's index; if none
qualifies it fails with `noMasterDetected`; if two or more qualify it fails
with `ambiguousMaster` and no device is picked. -/
theorem master_election_by_sync_jack (devices : List Device) :
    (∀ pre d post, devices = pre ++ d :: post → qualifies d = true →
        (∀ x ∈ pre, qualifies x = false) → (∀ x ∈ post, qualifies x = false) →
        elect_master devices false "" (-1) = .ok pre.length) ∧
    ((∀ x ∈ devices, qualifies x = false) →
        elect_master devices false "" (-1) = .error .noMasterDetected) ∧
    (2 ≤ (devices.filter qualifies).length →
        elect_master devices false "" (-1) = .error .ambiguousMaster) := by
  refine ⟨?_, ?_, ?_⟩
  · intro pre d post hdev hq hpre hpost
    subst hdev
    exact elect_master_auto_ok _ pre.length
      (find_master_by_sync_jack_unique pre post d hq hpre hpost)
      (by simp only [List.length_append, List.length_cons]; omega)
  · intro h
    exact elect_master_auto_err _ _ (find_master_by_sync_jack_none devices h)
  · intro h
    exact elect_master_auto_err _ _ (find_master_by_sync_jack_two devices h)

/-- Witness for C1 at concrete device sets: one candidate (device 1), zero
candidates, and two candidates. -/
theorem master_election_by_sync_jack_witness :
    elect_master [⟨"A", ⟨true, false⟩⟩, ⟨"B", ⟨false, true⟩⟩] false "" (-1)
        = .ok 1 ∧
    elect_master [⟨"A", ⟨true, false⟩⟩] false "" (-1)
        = .error .noMasterDetected ∧
    elect_master [⟨"A", ⟨false, true⟩⟩, ⟨"B", ⟨false, true⟩⟩] false "" (-1)
        = .error .ambiguousMaster :=
  ⟨(master_election_by_sync_jack _).1 [⟨"A", ⟨true, false⟩⟩] ⟨"B", ⟨false, true⟩⟩ []
      rfl (by decide) (by decide) (by decide),
   (master_election_by_sync_jack _).2.1 (by decide),
   (master_election_by_sync_jack _).2.2 (by decide)⟩

/-- C7: an explicit master serial takes precedence over jack inspection and
over any index designation: when the designated serial first matches the
device at position `i`, election returns `i` whatever the jack readings
(quantified inside `devices`) and whatever `masterIndexArg`; when no device's
serial matches, election fails with `masterNotFound`. -/
theorem master_serial_override (devices : List Device) (s : String) (mi : Int) :
    (∀ i d, devices.get? i = some d → d.serial = s →
        (∀ j, j < i → ∀ dj, devices.get? j = some dj → dj.serial ≠ s) →
        elect_master devices true s mi = .ok i) ∧
    ((∀ d ∈ devices, d.serial ≠ s) →
        elect_master devices true s mi = .error .masterNotFound) := by
  constructor
  · intro i d hget hser hfirst
    have hfind : find_master_by_serial devices s = some i := by
      unfold find_master_by_serial
      simpa using serialScan_first devices 0 s i d hget hser hfirst
    have hlt : i < devices.length := by
      rcases List.get?_eq_some.mp hget with ⟨hl, _⟩
      exact hl
    simp [elect_master, elect_dispatch, hfind, hlt]
  · intro h
    have hfind : find_master_by_serial devices s = none := by
      unfold find_master_by_serial
      exact serialScan_none devices 0 s h
    simp [elect_master, elect_dispatch, hfind]

/-- Witness for C7: the serial "B" resolves to device 1 even though device 0
is the jack-qualified candidate and index 0 was designated; serial "C"
matches nothing. -/
theorem master_serial_override_witness :
    elect_master [⟨"A", ⟨false, true⟩⟩, ⟨"B", ⟨true, false⟩⟩] true "B" 0
        = .ok 1 ∧
    elect_master [⟨"A", ⟨false, true⟩⟩, ⟨"B", ⟨true, false⟩⟩] true "C" 0
        = .error .masterNotFound :=
  ⟨(master_serial_override [⟨"A", ⟨false, true⟩⟩, ⟨"B", ⟨true, false⟩⟩] "B" 0).1
      1 ⟨"B", ⟨true, false⟩⟩ rfl rfl
      (by intro j hj dj hdj
          interval_cases j
          simp at hdj
          subst hdj
          decide),
   (master_serial_override [⟨"A", ⟨false, true⟩⟩, ⟨"B", ⟨true, false⟩⟩] "C" 0).2
      (by decide)⟩

/-- C9 (amended): an explicit master index `m ≠ -1` that is out of range is
rejected with `invalidMasterIndex`, and an in-range one is used directly; the
designated value `-1`, however, is indistinguishable from "no designation"
and triggers sync-jack inspection instead of being bounds-checked. -/
theorem master_index_override (devices : List Device) (m : Int) :
    (m ≠ -1 → (m < 0 ∨ (devices.length : Int) ≤ m) →
        elect_master devices false "" m = .error .invalidMasterIndex) ∧
    (0 ≤ m → m < (devices.length : Int) →
        elect_master devices false "" m = .ok m.toNat) := by
  constructor
  · intro hne hout
    have : ¬(m = -1) := hne
    simp only [elect_master, elect_dispatch, Bool.false_eq_true, if_false,
      if_neg this]
    rw [if_pos hout]
  · intro h0 hlt
    have hne : ¬(m = -1) := by omega
    simp only [elect_master, elect_dispatch, Bool.false_eq_true, if_false,
      if_neg hne]
    rw [if_neg (by omega)]

/-- Witness for C9 (amended): index 5 is rejected for a one-device set, and
index 0 is used directly. -/
theorem master_index_override_witness :
    elect_master [⟨"A", ⟨true, false⟩⟩] false "" 5
        = .error .invalidMasterIndex ∧
    elect_master [⟨"A", ⟨true, false⟩⟩] false "" 0 = .ok (0 : Int).toNat :=
  ⟨(master_index_override [⟨"A", ⟨true, false⟩⟩] 5).1 (by omega)
      (by right; simp),
   (master_index_override [⟨"A", ⟨true, false⟩⟩] 0).2 (by omega) (by simp)⟩

/-- C9 counterexample: the designated index `-1` is outside `[0, 2)` yet is
not rejected with `invalidMasterIndex`; it falls through to jack inspection,
which here elects device 0. -/
theorem master_index_override_counterexample :
    ((-1 : Int) < 0) ∧
    elect_master [⟨"A", ⟨false, true⟩⟩, ⟨"B", ⟨true, false⟩⟩] false "" (-1)
        = .ok 0 ∧
    elect_master [⟨"A", ⟨false, true⟩⟩, ⟨"B", ⟨true, false⟩⟩] false "" (-1)
        ≠ .error .invalidMasterIndex := by
  refine ⟨by norm_num, rfl, ?_⟩
  intro hcontra
  rw [show elect_master [⟨"A", ⟨false, true⟩⟩, ⟨"B", ⟨true, false⟩⟩] false "" (-1)
      = .ok 0 from rfl] at hcontra
  exact Except.noConfusion hcontra

/-! ### C4: configuration derivation -/

/-- C4: the elected master's configuration has subordinate delay 0 and sync
role master; every other device gets role subordinate and delay equal to the
global offset; color format, resolution, depth mode and frame rate are
identical across all devices; and the synchronized-images-only flag is true
for every device. -/
theorem config_derivation (m delay i j : Nat) :
    (derive_config m delay m).wired_sync_mode = WiredSyncMode.master ∧
    (derive_config m delay m).subordinate_delay_off_master_usec = 0 ∧
    (i ≠ m →
      (derive_config m delay i).wired_sync_mode = WiredSyncMode.subordinate ∧
      (derive_config m delay i).subordinate_delay_off_master_usec = delay) ∧
    (derive_config m delay i).color_format = (derive_config m delay j).color_format ∧
    (derive_config m delay i).color_resolution
        = (derive_config m delay j).color_resolution ∧
    (derive_config m delay i).depth_mode = (derive_config m delay j).depth_mode ∧
    (derive_config m delay i).camera_fps = (derive_config m delay j).camera_fps ∧
    (derive_config m delay i).synchronized_images_only = true := by
  refine ⟨by simp [derive_config], by simp [derive_config], fun h => ?_,
    by simp [derive_config], by simp [derive_config], by simp [derive_config],
    by simp [derive_config], by simp [derive_config]⟩
  constructor
  · simp [derive_config, h]
  · simp [derive_config, h]

/-- Witness for C4 with master 0, offset 160, subordinate 1. -/
theorem config_derivation_witness :
    (derive_config 0 160 0).wired_sync_mode = WiredSyncMode.master ∧
    (derive_config 0 160 0).subordinate_delay_off_master_usec = 0 ∧
    (derive_config 0 160 1).wired_sync_mode = WiredSyncMode.subordinate ∧
    (derive_config 0 160 1).subordinate_delay_off_master_usec = 160 :=
  ⟨(config_derivation 0 160 1 2).1, (config_derivation 0 160 1 2).2.1,
   ((config_derivation 0 160 1 2).2.2.1 (by decide)).1,
   ((config_derivation 0 160 1 2).2.2.1 (by decide)).2⟩

/-! ### C10: serial query failure fallback -/

/-- C10: a failed serial query does not abort the run: `get_serial`
substitutes the literal `"unknown_serial"`, which flows into the device's
output filename and is matched by an explicit master-serial override; two
devices with failed queries share that identity, and the override then
resolves (to the first of them) rather than erroring. -/
theorem unknown_serial_fallback :
    get_serial none = "unknown_serial" ∧
    (∀ i : Nat, make_filename i (get_serial none)
        = "k4a_" ++ toString i ++ "_" ++ "unknown_serial" ++ ".mkv") ∧
    (∀ j0 j1 : Jack, ∀ mi : Int,
        elect_master [⟨get_serial none, j0⟩, ⟨get_serial none, j1⟩]
          true "unknown_serial" mi = .ok 0) := by
  refine ⟨rfl, fun i => rfl, fun j0 j1 mi => ?_⟩
  have hfind : find_master_by_serial
      [⟨get_serial none, j0⟩, ⟨get_serial none, j1⟩] "unknown_serial" = some 0 := rfl
  simp [elect_master, elect_dispatch, hfind]

/-! ### C5: start choreography -/

theorem startEvents_flatMap (m : Nat) (l : List Nat) :
    l.flatMap (fun i => if i = m then [] else [Event.startCam i])
      = (l.filter (fun i => i ≠ m)).map Event.startCam := by
  induction l with
  | nil => rfl
  | cons a l ih => by_cases h : a = m <;> simp [h, ih]

/-- C5: for every device set of size at least 2 containing a valid master
index, the start trace is exactly the subordinate starts (ascending device
indices, master skipped, at least one of them) followed by a 200 ms settle
sleep — inside the 100-200 ms range — followed by the master's start. -/
theorem start_choreography (n m : Nat) (hn : 2 ≤ n) (hm : m < n) :
    ∃ subs : List Nat, ∃ d : Nat,
      startEvents m (List.range n)
        = subs.map Event.startCam ++ [Event.sleepMs d, Event.startCam m] ∧
      List.Pairwise (· < ·) subs ∧
      (∀ i, i ∈ subs ↔ i < n ∧ i ≠ m) ∧
      subs ≠ [] ∧
      100 ≤ d ∧ d ≤ 200 := by
  refine ⟨(List.range n).filter (fun i => i ≠ m), 200, ?_, ?_, ?_, ?_, by norm_num,
    le_refl 200⟩
  · unfold startEvents
    rw [startEvents_flatMap]
  · exact (List.pairwise_lt_range n).filter _
  · intro i
    simp [List.mem_filter, List.mem_range]
  · have hmem : (if m = 0 then 1 else 0) ∈ (List.range n).filter (fun i => i ≠ m) := by
      by_cases h0 : m = 0 <;> simp [h0, List.mem_filter, List.mem_range] <;> omega
    exact List.ne_nil_of_mem hmem

/-- Witness for C5 at two devices with master index 1. -/
theorem start_choreography_witness :
    ∃ subs : List Nat, ∃ d : Nat,
      startEvents 1 (List.range 2)
        = subs.map Event.startCam ++ [Event.sleepMs d, Event.startCam 1] ∧
      List.Pairwise (· < ·) subs ∧
      (∀ i, i ∈ subs ↔ i < 2 ∧ i ≠ 1) ∧
      subs ≠ [] ∧
      100 ≤ d ∧ d ≤ 200 :=
  start_choreography 2 1 (by decide) (by decide)

/-! ### Capture-loop lemmas -/

/-- Oracle realizing the spec's synthetic test schedule for one device:
timeout, success, timeout, success across iterations 0-3, writes succeeding. -/
def syntheticOracle : LoopOracle where
  wait := fun it _ => if it % 2 = 0 then .timeout else .succeeded
  writeOk := fun _ _ => true

/-- Oracle whose polls succeed but whose capture writes fail. -/
def badWriteOracle : LoopOracle where
  wait := fun _ _ => .succeeded
  writeOk := fun _ _ => false

/-- Oracle that always times out: the loop completes without writes. -/
def quietOracle : LoopOracle where
  wait := fun _ _ => .timeout
  writeOk := fun _ _ => true

theorem polledDevices_append (a b : List Event) :
    polledDevices (a ++ b) = polledDevices a ++ polledDevices b :=
  List.filterMap_append a b _

theorem polledDevices_pollDevice (o : LoopOracle) (it i : Nat) :
    polledDevices (pollDevice o it i).1 = [i] := by
  unfold pollDevice
  cases o.wait it i
  · by_cases hw : o.writeOk it i <;> simp [hw, polledDevices]
  · simp [polledDevices]
  · simp [polledDevices]

theorem pollDevice_events (o : LoopOracle) (it i : Nat) :
    ∀ e ∈ (pollDevice o it i).1, isPollEvent e = true := by
  unfold pollDevice
  cases o.wait it i
  · by_cases hw : o.writeOk it i <;> simp [hw, isPollEvent]
  · simp [isPollEvent]
  · simp [isPollEvent]

theorem pollDevices_events (o : LoopOracle) (it : Nat) (l : List Nat) :
    ∀ e ∈ (pollDevices o it l).1, isPollEvent e = true := by
  induction l with
  | nil => simp [pollDevices]
  | cons i rest ih =>
    intro e he
    rcases hpd : pollDevice o it i with ⟨pevs, perr⟩
    cases perr with
    | some err =>
      rw [pollDevices] at he
      simp only [hpd] at he
      exact pollDevice_events o it i e (by rw [hpd]; exact he)
    | none =>
      rw [pollDevices] at he
      simp only [hpd] at he
      rcases List.mem_append.mp he with h1 | h2
      · exact pollDevice_events o it i e (by rw [hpd]; exact h1)
      · exact ih e h2

theorem captureLoopAux_events (o : LoopOracle) (devs : List Nat) (it fuel : Nat) :
    ∀ e ∈ (captureLoopAux o devs it fuel).1, isPollEvent e = true := by
  induction fuel generalizing it with
  | zero => simp [captureLoopAux]
  | succ fuel ih =>
    intro e he
    rcases hpd : pollDevices o it devs with ⟨pevs, perr⟩
    cases perr with
    | some err =>
      rw [captureLoopAux] at he
      simp only [hpd] at he
      exact pollDevices_events o it devs e (by rw [hpd]; exact he)
    | none =>
      rw [captureLoopAux] at he
      simp only [hpd] at he
      rcases List.mem_append.mp he with h1 | h2
      · exact pollDevices_events o it devs e (by rw [hpd]; exact h1)
      · exact ih (it + 1) e h2

theorem pollDevices_polled (o : LoopOracle) (it : Nat) (l : List Nat)
    (h : (pollDevices o it l).2 = none) :
    polledDevices (pollDevices o it l).1 = l := by
  induction l with
  | nil => simp [pollDevices, polledDevices]
  | cons i rest ih =>
    rcases hpd : pollDevice o it i with ⟨pevs, perr⟩
    cases perr with
    | some err =>
      rw [pollDevices] at h
      simp only [hpd] at h
      exact absurd h (by simp)
    | none =>
      rw [pollDevices] at h ⊢
      simp only [hpd] at h ⊢
      rw [polledDevices_append]
      have h1 : polledDevices pevs = [i] := by
        have := polledDevices_pollDevice o it i
        rw [hpd] at this
        exact this
      rw [h1, ih h]
      rfl

/-! ### C2: the capture loop -/

/-- C2: each iteration polls every device once in ascending index order (the
polled indices of a completed iteration over devices `0..n-1` are exactly
`0, 1, ..., n-1`); a timeout writes nothing and moves on; a success writes
the capture and then releases it; a failed write (the capture still being
released) is fatal with `captureWriteFailed`, a hard read failure fatal with
`captureReadFailed`, and any fatal iteration outcome ends the whole loop
regardless of remaining time; on the synthetic timeout/success/timeout/success
schedule, exactly two writes occur, each immediately followed by its release. -/
theorem capture_loop_behavior (o : LoopOracle) (it i n fuel : Nat)
    (devs : List Nat) (evs : List Event) (err : Err) :
    ( (pollDevices o it (List.range n)).2 = none →
        polledDevices (pollDevices o it (List.range n)).1 = List.range n ) ∧
    ( o.wait it i = .timeout →
        pollDevice o it i = ([Event.getCapture i .timeout], none) ) ∧
    ( o.wait it i = .succeeded → o.writeOk it i = true →
        pollDevice o it i = ([Event.getCapture i .succeeded,
          Event.writeCapture i true, Event.releaseCapture i], none) ) ∧
    ( o.wait it i = .succeeded → o.writeOk it i = false →
        pollDevice o it i = ([Event.getCapture i .succeeded,
          Event.writeCapture i false, Event.releaseCapture i],
          some (.captureWriteFailed i)) ) ∧
    ( o.wait it i = .failed →
        pollDevice o it i = ([Event.getCapture i .failed],
          some (.captureReadFailed i)) ) ∧
    ( pollDevices o it devs = (evs, some err) →
        captureLoopAux o devs it (fuel + 1) = (evs, some err) ) ∧
    ( (captureLoop syntheticOracle [0] 4).1
        = [Event.getCapture 0 .timeout, Event.getCapture 0 .succeeded,
           Event.writeCapture 0 true, Event.releaseCapture 0,
           Event.getCapture 0 .timeout, Event.getCapture 0 .succeeded,
           Event.writeCapture 0 true, Event.releaseCapture 0] ∧
      (captureLoop syntheticOracle [0] 4).1.count (Event.writeCapture 0 true) = 2 ∧
      (captureLoop syntheticOracle [0] 4).2 = none ∧
      ∀ k, (captureLoop syntheticOracle [0] 4).1.get? k
          = some (Event.writeCapture 0 true) →
        (captureLoop syntheticOracle [0] 4).1.get? (k + 1)
          = some (Event.releaseCapture 0) ) := by
  refine ⟨pollDevices_polled o it (List.range n), fun h => ?_, fun h hw => ?_,
    fun h hw => ?_, fun h => ?_, fun h => ?_, rfl, rfl, rfl, ?_⟩
  · simp [pollDevice, h]
  · simp [pollDevice, h, hw]
  · simp [pollDevice, h, hw]
  · simp [pollDevice, h]
  · simp [captureLoopAux, h]
  · intro k hk
    rw [show (captureLoop syntheticOracle [0] 4).1
        = [Event.getCapture 0 .timeout, Event.getCapture 0 .succeeded,
           Event.writeCapture 0 true, Event.releaseCapture 0,
           Event.getCapture 0 .timeout, Event.getCapture 0 .succeeded,
           Event.writeCapture 0 true, Event.releaseCapture 0] from rfl] at hk ⊢
    rcases k with _ | _ | _ | _ | _ | _ | _ | _ | k <;> simp_all

/-- Witness for C2: the general conjuncts applied at the synthetic and
failing oracles, with concrete outcomes. -/
theorem capture_loop_behavior_witness :
    polledDevices (pollDevices syntheticOracle 0 (List.range 1)).1
        = List.range 1 ∧
    pollDevice syntheticOracle 0 0 = ([Event.getCapture 0 .timeout], none) ∧
    pollDevice syntheticOracle 1 0 = ([Event.getCapture 0 .succeeded,
        Event.writeCapture 0 true, Event.releaseCapture 0], none) ∧
    pollDevice badWriteOracle 0 0 = ([Event.getCapture 0 .succeeded,
        Event.writeCapture 0 false, Event.releaseCapture 0],
        some (.captureWriteFailed 0)) ∧
    captureLoopAux badWriteOracle [0] 0 (41 + 1)
        = ([Event.getCapture 0 .succeeded, Event.writeCapture 0 false,
            Event.releaseCapture 0], some (.captureWriteFailed 0)) :=
  ⟨(capture_loop_behavior syntheticOracle 0 0 1 0 [] [] .noMasterDetected).1 rfl,
   (capture_loop_behavior syntheticOracle 0 0 1 0 [] [] .noMasterDetected).2.1 rfl,
   (capture_loop_behavior syntheticOracle 1 0 1 0 [] [] .noMasterDetected).2.2.1
      rfl rfl,
   (capture_loop_behavior badWriteOracle 0 0 1 0 [] [] .noMasterDetected).2.2.2.1
      rfl rfl,
   (capture_loop_behavior badWriteOracle 0 0 1 41 [0]
      [Event.getCapture 0 .succeeded, Event.writeCapture 0 false,
       Event.releaseCapture 0] (.captureWriteFailed 0)).2.2.2.2.2.1 rfl⟩

/-! ### C3: teardown on fatal exit -/

/-- C3 counterexample: on a fatal capture-write failure, `die` exits the
process immediately: the trace stops at the failed capture's release, with no
camera stop, no flush/close of any recording session, and no device-handle
close — no teardown of any kind before process exit. -/
theorem fatal_exit_teardown_counterexample :
    (runStreaming badWriteOracle (fun _ => true) 1 1 [make_filename 0 "A"]).2
        = ExitStatus.fatal (.captureWriteFailed 0) ∧
    (runStreaming badWriteOracle (fun _ => true) 1 1 [make_filename 0 "A"]).1
        = [Event.getCapture 0 .succeeded, Event.writeCapture 0 false,
           Event.releaseCapture 0] ∧
    (runStreaming badWriteOracle (fun _ => true) 1 1
        [make_filename 0 "A"]).1.filter isTeardown = [] :=
  ⟨rfl, rfl, rfl⟩

/-- C3 (amended): `die` performs no teardown: on any fatal error in the
capture loop the process exits fatally with a trace containing no
stop/flush/close/handle-close event at all; the stop-flush-close-release
sequence happens only on the normal-completion path, where it does occur for
every device. -/
theorem fatal_exit_teardown (o : LoopOracle) (fOk : Nat → Bool)
    (iters n : Nat) (files : List String) (err : Err) :
    ( (captureLoop o (List.range n) iters).2 = some err →
        (runStreaming o fOk iters n files).2 = ExitStatus.fatal err ∧
        ∀ e ∈ (runStreaming o fOk iters n files).1, isTeardown e = false ) ∧
    ( (captureLoop o (List.range n) iters).2 = none →
        runStreaming o fOk iters n files
          = ((captureLoop o (List.range n) iters).1
              ++ shutdownEvents fOk (List.range n) ++ files.map Event.report,
             ExitStatus.normal) ) := by
  constructor
  · intro h
    constructor
    · simp [runStreaming, h]
    · intro e he
      simp only [runStreaming, h] at he
      have hpoll := captureLoopAux_events o (List.range n) 0 iters e he
      cases e <;> simp [isPollEvent] at hpoll <;> rfl
  · intro h
    simp [runStreaming, h]

/-- Witness for C3 (amended) at the failing-write oracle and, for the normal
path, the always-timeout oracle. -/
theorem fatal_exit_teardown_witness :
    ( (runStreaming badWriteOracle (fun _ => true) 1 1 []).2
        = ExitStatus.fatal (.captureWriteFailed 0) ∧
      ∀ e ∈ (runStreaming badWriteOracle (fun _ => true) 1 1 []).1,
        isTeardown e = false ) ∧
    runStreaming quietOracle (fun _ => true) 1 1 []
        = ((captureLoop quietOracle (List.range 1) 1).1
            ++ shutdownEvents (fun _ => true) (List.range 1)
            ++ ([] : List String).map Event.report, ExitStatus.normal) :=
  ⟨(fatal_exit_teardown badWriteOracle (fun _ => true) 1 1 []
      (.captureWriteFailed 0)).1 rfl,
   (fatal_exit_teardown quietOracle (fun _ => true) 1 1 []
      (.captureWriteFailed 0)).2 rfl⟩

/-! ### C6: shutdown ordering -/

theorem count_stopCam_map (l : List Nat) (i : Nat) :
    (l.map Event.stopCam).count (Event.stopCam i) = l.count i := by
  induction l with
  | nil => rfl
  | cons a l ih =>
    simp only [List.map_cons, List.count_cons, ih]
    by_cases h : a = i <;> simp [h]

theorem count_closeDev_map (l : List Nat) (i : Nat) :
    (l.map Event.closeDev).count (Event.closeDev i) = l.count i := by
  induction l with
  | nil => rfl
  | cons a l ih =>
    simp only [List.map_cons, List.count_cons, ih]
    by_cases h : a = i <;> simp [h]

theorem count_mid_flatMap (fOk : Nat → Bool) (l : List Nat) (i : Nat) :
    ((l.flatMap fun k => [Event.flushRec k (fOk k), Event.closeRec k]).count
        (Event.closeRec i) = l.count i) ∧
    ((l.flatMap fun k => [Event.flushRec k (fOk k), Event.closeRec k]).count
        (Event.flushRec i (fOk i)) = l.count i) := by
  induction l with
  | nil => exact ⟨rfl, rfl⟩
  | cons a l ih =>
    constructor
    · simp only [List.flatMap_cons, List.count_append, ih.1, List.count_cons,
        List.count_nil]
      by_cases h : a = i <;> simp [h] <;> omega
    · simp only [List.flatMap_cons, List.count_append, ih.2, List.count_cons,
        List.count_nil]
      by_cases h : a = i <;> simp [h] <;> omega

theorem count_range_one (n i : Nat) (h : i < n) : (List.range n).count i = 1 := by
  induction n with
  | zero => omega
  | succ n ih =>
    rw [List.range_succ, List.count_append]
    by_cases hi : i < n
    · rw [ih hi]
      have hne : i ≠ n := by omega
      simp [hne]
    · have heq : i = n := by omega
      subst heq
      rw [List.count_eq_zero_of_not_mem (by simp)]
      simp

/-- C6: on the normal-completion shutdown path, the trace splits into a
camera-stop segment, then a flush/close segment, then a handle-close segment:
every stream stop precedes every flush or close of any recording session;
each device's session is flushed and closed exactly once in the whole trace,
after its own (and every) device stopped; and device handles are closed only
in the final segment, after all sessions are closed. -/
theorem shutdown_ordering (fOk : Nat → Bool) (n : Nat) :
    ∃ stops mids fins : List Event,
      shutdownEvents fOk (List.range n) = stops ++ mids ++ fins ∧
      (∀ e ∈ stops, ∃ i, i < n ∧ e = Event.stopCam i) ∧
      (∀ e ∈ mids, (∃ i b, e = Event.flushRec i b) ∨ ∃ i, e = Event.closeRec i) ∧
      (∀ e ∈ fins, ∃ i, e = Event.closeDev i) ∧
      (∀ i, i < n →
        stops.count (Event.stopCam i) = 1 ∧
        (shutdownEvents fOk (List.range n)).count (Event.flushRec i (fOk i)) = 1 ∧
        (shutdownEvents fOk (List.range n)).count (Event.closeRec i) = 1 ∧
        fins.count (Event.closeDev i) = 1) := by
  refine ⟨(List.range n).map Event.stopCam,
    (List.range n).flatMap fun k => [Event.flushRec k (fOk k), Event.closeRec k],
    (List.range n).map Event.closeDev, rfl, ?_, ?_, ?_, ?_⟩
  · intro e he
    rcases List.mem_map.mp he with ⟨i, hi, rfl⟩
    exact ⟨i, List.mem_range.mp hi, rfl⟩
  · intro e he
    rcases List.mem_flatMap.mp he with ⟨k, _, hmem⟩
    simp only [List.mem_cons, List.not_mem_nil, or_false] at hmem
    rcases hmem with rfl | rfl
    · exact Or.inl ⟨k, fOk k, rfl⟩
    · exact Or.inr ⟨k, rfl⟩
  · intro e he
    rcases List.mem_map.mp he with ⟨i, _, rfl⟩
    exact ⟨i, rfl⟩
  · intro i hi
    refine ⟨?_, ?_, ?_, ?_⟩
    · rw [count_stopCam_map, count_range_one n i hi]
    · unfold shutdownEvents
      rw [List.count_append, List.count_append,
        (count_mid_flatMap fOk (List.range n) i).2, count_range_one n i hi,
        List.count_eq_zero_of_not_mem (by simp),
        List.count_eq_zero_of_not_mem (by simp)]
    · unfold shutdownEvents
      rw [List.count_append, List.count_append,
        (count_mid_flatMap fOk (List.range n) i).1, count_range_one n i hi,
        List.count_eq_zero_of_not_mem (by simp),
        List.count_eq_zero_of_not_mem (by simp)]
    · rw [count_closeDev_map, count_range_one n i hi]

/-- Witness for C6 at one device. -/
theorem shutdown_ordering_witness :
    ∃ stops mids fins : List Event,
      shutdownEvents (fun _ => true) (List.range 1) = stops ++ mids ++ fins ∧
      (∀ e ∈ stops, ∃ i, i < 1 ∧ e = Event.stopCam i) ∧
      (∀ e ∈ mids, (∃ i b, e = Event.flushRec i b) ∨ ∃ i, e = Event.closeRec i) ∧
      (∀ e ∈ fins, ∃ i, e = Event.closeDev i) ∧
      (∀ i, i < 1 →
        stops.count (Event.stopCam i) = 1 ∧
        (shutdownEvents (fun _ => true) (List.range 1)).count
            (Event.flushRec i true) = 1 ∧
        (shutdownEvents (fun _ => true) (List.range 1)).count
            (Event.closeRec i) = 1 ∧
        fins.count (Event.closeDev i) = 1) :=
  shutdown_ordering (fun _ => true) 1

/-! ### C8: flush/close failures during normal completion -/

theorem filter_isReport_loop (o : LoopOracle) (devs : List Nat) (it fuel : Nat) :
    (captureLoopAux o devs it fuel).1.filter isReport = [] := by
  rw [List.filter_eq_nil]
  intro e he
  have := captureLoopAux_events o devs it fuel e he
  cases e <;> simp_all [isPollEvent, isReport]

theorem filter_isReport_shutdown (fOk : Nat → Bool) (devs : List Nat) :
    (shutdownEvents fOk devs).filter isReport = [] := by
  rw [List.filter_eq_nil]
  intro e he
  unfold shutdownEvents at he
  rcases List.mem_append.mp he with h12 | h3
  · rcases List.mem_append.mp h12 with h1 | h2
    · rcases List.mem_map.mp h1 with ⟨i, _, rfl⟩
      simp [isReport]
    · rcases List.mem_flatMap.mp h2 with ⟨k, _, hmem⟩
      simp only [List.mem_cons, List.not_mem_nil, or_false] at hmem
      rcases hmem with rfl | rfl <;> simp [isReport]
  · rcases List.mem_map.mp h3 with ⟨i, _, rfl⟩
    simp [isReport]

theorem filter_isReport_reports (files : List String) :
    (files.map Event.report).filter isReport = files.map Event.report := by
  rw [List.filter_eq_self]
  intro e he
  rcases List.mem_map.mp he with ⟨s, _, rfl⟩
  rfl

theorem filter_isReport_captureLoop (o : LoopOracle) (devs : List Nat)
    (iters : Nat) : (captureLoop o devs iters).1.filter isReport = [] :=
  filter_isReport_loop o devs 0 iters

/-- C8 (amended): flush failures during normal completion do not change the
already-determined success exit status — the process still exits 0 — but the
program claims success for every device unconditionally: whatever the flush
outcomes, the flush result is discarded, every session is still closed, and
the only reporting in the trace is the final success report listing every
device's file (no device-specific failure report exists). -/
theorem shutdown_flush_failures (o : LoopOracle) (fOk : Nat → Bool)
    (iters n : Nat) (files : List String)
    (h : (captureLoop o (List.range n) iters).2 = none) :
    exitCode (runStreaming o fOk iters n files).2 = 0 ∧
    (runStreaming o fOk iters n files).1.filter isReport
        = files.map Event.report ∧
    ∀ i, i < n →
      Event.flushRec i (fOk i) ∈ (runStreaming o fOk iters n files).1 ∧
      Event.closeRec i ∈ (runStreaming o fOk iters n files).1 := by
  have hr : runStreaming o fOk iters n files
      = ((captureLoop o (List.range n) iters).1
          ++ shutdownEvents fOk (List.range n) ++ files.map Event.report,
         ExitStatus.normal) := by
    simp [runStreaming, h]
  rw [hr]
  refine ⟨rfl, ?_, ?_⟩
  · rw [List.filter_append, List.filter_append, filter_isReport_captureLoop,
      filter_isReport_shutdown, filter_isReport_reports]
    rfl
  · intro i hi
    have hflush : Event.flushRec i (fOk i) ∈ shutdownEvents fOk (List.range n) := by
      unfold shutdownEvents
      refine List.mem_append.mpr (Or.inl (List.mem_append.mpr (Or.inr ?_)))
      exact List.mem_flatMap.mpr ⟨i, List.mem_range.mpr hi, by simp⟩
    have hclose : Event.closeRec i ∈ shutdownEvents fOk (List.range n) := by
      unfold shutdownEvents
      refine List.mem_append.mpr (Or.inl (List.mem_append.mpr (Or.inr ?_)))
      exact List.mem_flatMap.mpr ⟨i, List.mem_range.mpr hi, by simp⟩
    constructor
    · exact List.mem_append.mpr (Or.inl (List.mem_append.mpr (Or.inr hflush)))
    · exact List.mem_append.mpr (Or.inl (List.mem_append.mpr (Or.inr hclose)))

/-- Witness for C8 (amended): one device, flush failing, loop all-timeout. -/
theorem shutdown_flush_failures_witness :
    exitCode (runStreaming quietOracle (fun _ => false) 1 1
        [make_filename 0 "A"]).2 = 0 ∧
    (runStreaming quietOracle (fun _ => false) 1 1
        [make_filename 0 "A"]).1.filter isReport
      = [make_filename 0 "A"].map Event.report ∧
    ∀ i, i < 1 →
      Event.flushRec i false ∈ (runStreaming quietOracle (fun _ => false) 1 1
          [make_filename 0 "A"]).1 ∧
      Event.closeRec i ∈ (runStreaming quietOracle (fun _ => false) 1 1
          [make_filename 0 "A"]).1 :=
  shutdown_flush_failures quietOracle (fun _ => false) 1 1 [make_filename 0 "A"] rfl

/-- C8 counterexample: with device 0's flush failing during normal
completion, the process exits 0 as the claim's first half says, but contrary
to its second half the success report still lists device 0's file: the trace
records the failed flush and then the unconditional "Done. Wrote:" report of
that same device. -/
theorem shutdown_flush_failures_counterexample :
    exitCode (runStreaming quietOracle (fun _ => false) 1 1
        [make_filename 0 "A"]).2 = 0 ∧
    Event.flushRec 0 false ∈ (runStreaming quietOracle (fun _ => false) 1 1
        [make_filename 0 "A"]).1 ∧
    Event.report (make_filename 0 "A") ∈ (runStreaming quietOracle
        (fun _ => false) 1 1 [make_filename 0 "A"]).1 := by
  refine ⟨rfl, ?_, ?_⟩
  · rw [show (runStreaming quietOracle (fun _ => false) 1 1
        [make_filename 0 "A"]).1
      = [Event.getCapture 0 .timeout, Event.stopCam 0, Event.flushRec 0 false,
         Event.closeRec 0, Event.closeDev 0,
         Event.report (make_filename 0 "A")] from rfl]
    simp
  · rw [show (runStreaming quietOracle (fun _ => false) 1 1
        [make_filename 0 "A"]).1
      = [Event.getCapture 0 .timeout, Event.stopCam 0, Event.flushRec 0 false,
         Event.closeRec 0, Event.closeDev 0,
         Event.report (make_filename 0 "A")] from rfl]
    simp

end HandoverCapture
